import Mathlib

/-!
Verification of the EIP-712 message-format core of the vertex-rust-sdk
repository (`src/vertex_utils/eip712_structs.rs`), shallowly embedded in
Lean 4.  Machine integers (`u64`, `i128`) are modelled by `Nat`/`Int` with
explicit `< 2 ^ 64` bounds where they matter; byte arrays by `List Nat`;
a Rust `panic!`/out-of-bounds/`unwrap` abort by `Option.none`.
-/

namespace VertexSdk

/-- The closed order-type enumeration `OrderType`
(`Default`, `ImmediateOrCancel`, `FillOrKill`, `PostOnly`). -/
inductive OrderType where
  | Default
  | ImmediateOrCancel
  | FillOrKill
  | PostOnly
deriving DecidableEq

/-- `OrderType::taker_only`: true for `ImmediateOrCancel` and `FillOrKill`. -/
def OrderType.taker_only : OrderType → Bool
  | .ImmediateOrCancel => true
  | .FillOrKill => true
  | _ => false

/-- `OrderType::expiration_bit`: the numeric tag of each order type. -/
def OrderType.expiration_bit : OrderType → Nat
  | .Default => 0
  | .ImmediateOrCancel => 1
  | .FillOrKill => 2
  | .PostOnly => 3

/-- `OrderType::apply_to_expiration`:
`expiration | (self.expiration_bit() << 62)`. -/
def OrderType.apply_to_expiration (ot : OrderType) (expiration : Nat) : Nat :=
  expiration ||| (ot.expiration_bit <<< 62)

/-- The internal `Order` record: 32-byte sender identity, signed 128-bit
price and amount, packed 64-bit expiration and nonce (both private in the
source, reached through accessors). -/
structure Order where
  sender : List Nat
  priceX18 : Int
  amount : Int
  expiration : Nat
  nonce : Nat
deriving DecidableEq

namespace endpoint

/-- Modelled from the spec: the external ABI binding struct
`endpoint::Order` (generated bindings, not among the sources) — a plain
record carrying the same five fields in snake_case, per §4.4's
field-for-field conversion contract. -/
structure Order where
  sender : List Nat
  price_x18 : Int
  amount : Int
  expiration : Nat
  nonce : Nat
deriving DecidableEq

end endpoint

/-- `Order::to_binding`: field-for-field copy into `endpoint::Order`. -/
def Order.to_binding (o : Order) : endpoint.Order :=
  { sender := o.sender
    price_x18 := o.priceX18
    amount := o.amount
    expiration := o.expiration
    nonce := o.nonce }

/-- `Order::from_binding`: field-for-field copy back from `endpoint::Order`. -/
def Order.from_binding (o : endpoint.Order) : Order :=
  { sender := o.sender
    priceX18 := o.price_x18
    amount := o.amount
    expiration := o.expiration
    nonce := o.nonce }

/-- `Order::raw_expiration`: the raw packed expiration word. -/
def Order.raw_expiration (o : Order) : Nat :=
  o.expiration

/-- `Order::raw_nonce`: the raw packed nonce word. -/
def Order.raw_nonce (o : Order) : Nat :=
  o.nonce

/-- `Order::expiration()` accessor (primed: the raw field keeps the source
field name `expiration`): `self.expiration & ((1 << 58) - 1)`. -/
def Order.expiration' (o : Order) : Nat :=
  o.expiration &&& ((1 <<< 58) - 1)

/-- `Order::reduce_only`: `(self.expiration & (1 << 61)) != 0`. -/
def Order.reduce_only (o : Order) : Bool :=
  (o.expiration &&& (1 <<< 61)) != 0

/-- `Order::reserved_bits`: `(self.expiration >> 58) & ((1 << 3) - 1)`. -/
def Order.reserved_bits (o : Order) : Nat :=
  (o.expiration >>> 58) &&& ((1 <<< 3) - 1)

/-- `Order::recv_time`: `self.nonce >> 20`. -/
def Order.recv_time (o : Order) : Nat :=
  o.nonce >>> 20

/-- `Order::is_trigger_order`: `(self.nonce >> 63) == 1`. -/
def Order.is_trigger_order (o : Order) : Bool :=
  (o.nonce >>> 63) == 1

/-- Modelled from the spec: `pack_expiration(order_type, reduce_only,
reserved_bits, raw_expiration)` (§4.1) ORs `raw_expiration` with
`reduce_only << 61` and the order-type tag `<< 62`, reserved bits at
58–60.  Only the order-type half (`OrderType::apply_to_expiration`) is
among the sources; the reduce-only and reserved placements follow the
spec's words and the §3 bit table. -/
def pack_expiration (ot : OrderType) (ro : Bool) (reserved : Nat)
    (raw_expiration : Nat) : Nat :=
  ot.apply_to_expiration
    ((raw_expiration ||| (reserved <<< 58)) ||| ((if ro then 1 else 0) <<< 61))

/-- Modelled from the spec: the `order_type_tag(packed)` accessor (§4.1):
bits 62–63 of the packed expiration mapped to the order-type
enumeration (0=Default, 1=ImmediateOrCancel, 2=FillOrKill, 3=PostOnly). -/
def order_type_tag (packed : Nat) : OrderType :=
  if (packed >>> 62) &&& 3 == 0 then OrderType.Default
  else if (packed >>> 62) &&& 3 == 1 then OrderType.ImmediateOrCancel
  else if (packed >>> 62) &&& 3 == 2 then OrderType.FillOrKill
  else OrderType.PostOnly

/-- `to_bytes12`: copies the name's bytes over a zeroed 12-byte array
(`out[i] = b[i]` for each index of the name).  For a name longer than 12
bytes the write `out[12]` is out of bounds and the Rust code panics; that
panic is modelled as `none`. -/
def to_bytes12 (s : List Nat) : Option (List Nat) :=
  if s.length ≤ 12 then some (s ++ List.replicate (12 - s.length) 0) else none

/-- `concat_to_bytes32`: `ret[..20] = address; ret[20..] = name` — the
20-byte address followed by the 12-byte name block. -/
def concat_to_bytes32 (address : List Nat) (name : List Nat) : List Nat :=
  address ++ name

/-- `to_bytes32`: `concat_to_bytes32(address.into(), to_bytes12(name))`. -/
def to_bytes32 (address : List Nat) (s : List Nat) : Option (List Nat) :=
  (to_bytes12 s).map (fun name => concat_to_bytes32 address name)

/-- One UTF-8 continuation byte: `0x80 ≤ b ≤ 0xBF`. -/
def utf8Cont (b : Nat) : Bool :=
  0x80 ≤ b && b ≤ 0xBF

/-- The byte of `l` at index `i`, defaulting to `0` past the end (`0` fails
every continuation-byte range below, so a truncated sequence is invalid,
exactly as in Rust's checker). -/
def byteAt (l : List Nat) (i : Nat) : Nat :=
  (l.get? i).getD 0

/-- Number of continuation bytes that a lead byte `b` demands of the
remaining input `l`, `none` if `b` cannot lead a sequence or `l` does not
continue it.  This is the standard UTF-8 table used by Rust's
`String::from_utf8`: ASCII; 2-byte `C2–DF`; 3-byte `E0`/`E1–EC`/`ED`/
`EE–EF` with restricted second bytes (no overlong forms, no surrogates);
4-byte `F0`/`F1–F3`/`F4`. -/
def utf8ContLen (b : Nat) (l : List Nat) : Option Nat :=
  if b ≤ 0x7F then
    some 0
  else if 0xC2 ≤ b && b ≤ 0xDF then
    if utf8Cont (byteAt l 0) then some 1 else none
  else if b == 0xE0 then
    if (0xA0 ≤ byteAt l 0 && byteAt l 0 ≤ 0xBF) && utf8Cont (byteAt l 1) then
      some 2
    else none
  else if (0xE1 ≤ b && b ≤ 0xEC) || (b == 0xEE || b == 0xEF) then
    if utf8Cont (byteAt l 0) && utf8Cont (byteAt l 1) then some 2 else none
  else if b == 0xED then
    if (0x80 ≤ byteAt l 0 && byteAt l 0 ≤ 0x9F) && utf8Cont (byteAt l 1) then
      some 2
    else none
  else if b == 0xF0 then
    if (0x90 ≤ byteAt l 0 && byteAt l 0 ≤ 0xBF) &&
        (utf8Cont (byteAt l 1) && utf8Cont (byteAt l 2)) then
      some 3
    else none
  else if 0xF1 ≤ b && b ≤ 0xF3 then
    if utf8Cont (byteAt l 0) &&
        (utf8Cont (byteAt l 1) && utf8Cont (byteAt l 2)) then
      some 3
    else none
  else if b == 0xF4 then
    if (0x80 ≤ byteAt l 0 && byteAt l 0 ≤ 0x8F) &&
        (utf8Cont (byteAt l 1) && utf8Cont (byteAt l 2)) then
      some 3
    else none
  else
    none

/-- Fuel-driven UTF-8 validation loop: consume one lead byte and its
continuation bytes per step.  Each step consumes at least the lead byte,
so fuel equal to the input length always suffices. -/
def utf8ValidAux : Nat → List Nat → Bool
  | _, [] => true
  | 0, _ :: _ => false
  | fuel + 1, b :: rest =>
    match utf8ContLen b rest with
    | some k => utf8ValidAux fuel (rest.drop k)
    | none => false

/-- UTF-8 validity of a byte sequence, as checked by Rust's
`String::from_utf8`. -/
def utf8Valid (l : List Nat) : Bool :=
  utf8ValidAux l.length l

/-- `from_bytes12`: `String::from_utf8(b.to_vec()).unwrap()`.  On valid
UTF-8 the resulting string's bytes are exactly `b` (nothing is trimmed);
the `unwrap` panic on invalid UTF-8 is modelled as `none`. -/
def from_bytes12 (b : List Nat) : Option (List Nat) :=
  if utf8Valid b then some b else none

/-- `from_bytes32`: split at byte 20 into
`(H160::from_slice(&b[..20]), from_bytes12(b[20..]))`. -/
def from_bytes32 (b : List Nat) : Option (List Nat × List Nat) :=
  (from_bytes12 (b.drop 20)).map (fun name => (b.take 20, name))

/-! Helper lemmas shared by several claims. -/

theorem and_mask_eq_mod (x n : Nat) : x &&& (2 ^ n - 1) = x % 2 ^ n := by
  apply Nat.eq_of_testBit_eq
  intro i
  simp [Nat.testBit_and, Nat.testBit_mod_two_pow, Bool.and_comm]

theorem and_two_pow_bne (x n : Nat) : ((x &&& 2 ^ n) != 0) = x.testBit n := by
  by_cases hb : x.testBit n = true
  · have hnz : x &&& 2 ^ n ≠ 0 := by
      intro hz
      have h2 : (x &&& 2 ^ n).testBit n = true := by
        simp [Nat.testBit_and, hb, Nat.testBit_two_pow_self]
      rw [hz] at h2
      simp at h2
    simp [hb, hnz]
  · have hb' : x.testBit n = false := by simpa using hb
    have hz : x &&& 2 ^ n = 0 := by
      apply Nat.eq_of_testBit_eq
      intro i
      simp only [Nat.testBit_and, Nat.testBit_two_pow, Nat.zero_testBit]
      by_cases hni : n = i
      · subst hni
        simp [hb']
      · simp [hni]
    simp [hz, hb']

theorem utf8ValidAux_of_ascii (fuel : Nat) :
    ∀ l : List Nat, l.length ≤ fuel → (∀ b ∈ l, b < 128) →
      utf8ValidAux fuel l = true := by
  induction fuel with
  | zero =>
    intro l hl _
    have hnil : l = [] := List.eq_nil_of_length_eq_zero (by omega)
    rw [hnil]
    rfl
  | succ fuel ih =>
    intro l hl h
    match l with
    | [] => rfl
    | b :: rest =>
      have hb : b ≤ 0x7F := by
        have := h b (by simp)
        omega
      rw [utf8ValidAux, utf8ContLen, if_pos hb]
      show utf8ValidAux fuel (rest.drop 0) = true
      rw [List.drop_zero]
      refine ih rest ?_ fun x hx => h x (by simp [hx])
      simp only [List.length_cons] at hl
      omega

theorem utf8Valid_of_ascii (l : List Nat) (h : ∀ b ∈ l, b < 128) :
    utf8Valid l = true :=
  utf8ValidAux_of_ascii l.length l le_rfl h

/-! The claim theorems. -/

/-- C3: for every constructible `Order`, `from_binding (to_binding o)`
equals `o` field by field: `from_binding` is the exact inverse of
`to_binding`. -/
theorem C3_from_to_binding (o : Order) :
    Order.from_binding (Order.to_binding o) = o := by
  cases o
  rfl

/-- C7: the `Order` accessors decode fixed bit ranges of the packed
expiration `p`: `expiration'` is the low 58 bits `p % 2 ^ 58` (hence
always `< 2 ^ 58`), `reduce_only` tests bit 61, and `reserved_bits` is
bits 58–60, i.e. `p / 2 ^ 58 % 2 ^ 3`. -/
theorem C7_accessor_bit_ranges (o : Order) (h : o.expiration < 2 ^ 64) :
    o.expiration' = o.expiration % 2 ^ 58 ∧
    o.expiration' < 2 ^ 58 ∧
    (o.reduce_only = true ↔ Nat.testBit o.expiration 61 = true) ∧
    o.reserved_bits = o.expiration / 2 ^ 58 % 2 ^ 3 := by
  refine ⟨?_, ?_, ?_, ?_⟩
  · rw [Order.expiration', Nat.one_shiftLeft, and_mask_eq_mod]
  · rw [Order.expiration', Nat.one_shiftLeft, and_mask_eq_mod]
    exact Nat.mod_lt _ (by norm_num)
  · rw [Order.reduce_only, Nat.one_shiftLeft, and_two_pow_bne]
  · rw [Order.reserved_bits, Nat.one_shiftLeft, and_mask_eq_mod,
      Nat.shiftRight_eq_div_pow]

/-- C7 witness: the accessor facts evaluated on a concrete packed word. -/
theorem C7_accessor_bit_ranges_witness :
    (Order.mk [] 0 0 (2 ^ 61 + 5) 3).expiration'
        = (2 ^ 61 + 5) % 2 ^ 58 ∧
    (Order.mk [] 0 0 (2 ^ 61 + 5) 3).expiration' < 2 ^ 58 ∧
    ((Order.mk [] 0 0 (2 ^ 61 + 5) 3).reduce_only = true ↔
      Nat.testBit (2 ^ 61 + 5) 61 = true) ∧
    (Order.mk [] 0 0 (2 ^ 61 + 5) 3).reserved_bits
        = (2 ^ 61 + 5) / 2 ^ 58 % 2 ^ 3 :=
  C7_accessor_bit_ranges (Order.mk [] 0 0 (2 ^ 61 + 5) 3) (by norm_num)

/-- C5 counterexample: a 13-byte name does not produce a caller-visible
error — `to_bytes12` hits the out-of-bounds write, i.e. the Rust panic
path (modelled `none`); there is no error channel at all. -/
theorem C5_counterexample : to_bytes12 (List.replicate 13 97) = none := by
  decide

/-- C5 amended: a name longer than 12 bytes is never silently truncated —
no encoded value is produced — but the encoder panics (index out of
bounds, modelled `none`) instead of returning a caller-visible error. -/
theorem C5_overlong_name_panics (s : List Nat) (h : 12 < s.length) :
    to_bytes12 s = none := by
  rw [to_bytes12, if_neg (by omega)]

/-- C5 witness: the amended claim evaluated on a 14-byte name. -/
theorem C5_overlong_name_panics_witness :
    to_bytes12 (List.replicate 14 0) = none :=
  C5_overlong_name_panics (List.replicate 14 0) (by decide)

/-- C6 counterexample: a 32-byte identity whose 12-byte tail is invalid
UTF-8 (twelve `0xFF` bytes) makes `from_bytes32` hit the `unwrap` panic
(modelled `none`) instead of returning an `InvalidNameEncoding` value. -/
theorem C6_counterexample :
    from_bytes32 (List.replicate 20 0 ++ List.replicate 12 255) = none := by
  decide

/-- C6 amended: for every input whose name tail is not valid UTF-8,
identity decoding panics via `String::from_utf8(..).unwrap()` (modelled
`none`); no `InvalidNameEncoding` error value is ever returned. -/
theorem C6_invalid_utf8_panics (b : List Nat)
    (h : utf8Valid (b.drop 20) = false) : from_bytes32 b = none := by
  rw [from_bytes32, from_bytes12, if_neg (by simp [h]), Option.map_none']

/-- C6 witness: the amended claim evaluated on 32 `0xC8` bytes (the tail
starts a 2-byte sequence never followed by a continuation byte). -/
theorem C6_invalid_utf8_panics_witness :
    from_bytes32 (List.replicate 32 200) = none :=
  C6_invalid_utf8_panics (List.replicate 32 200) (by decide)

/-- C2 counterexample: encoding the all-`0xAA` address with the empty name
and decoding returns the name as twelve zero bytes, not the original empty
name — the zero-byte padding is not removed. -/
theorem C2_counterexample :
    (to_bytes32 (List.replicate 20 170) []).bind from_bytes32
        = some (List.replicate 20 170, List.replicate 12 0) ∧
    List.replicate 12 0 ≠ ([] : List Nat) := by
  decide

/-- C2 amended: decoding the identity encoded from a 20-byte address and
an ASCII name of at most 12 bytes returns the address exactly and the
name right-padded with zero bytes to length 12; the padding is kept (the
decoder never trims), so the name round-trips exactly only when it is
exactly 12 bytes long. -/
theorem C2_roundtrip_padded (address name : List Nat)
    (ha : address.length = 20) (hn : name.length ≤ 12)
    (hascii : ∀ b ∈ name, b < 128) :
    (to_bytes32 address name).bind from_bytes32
      = some (address, name ++ List.replicate (12 - name.length) 0) := by
  have hpad : ∀ b ∈ name ++ List.replicate (12 - name.length) 0, b < 128 := by
    intro b hb
    rcases List.mem_append.mp hb with h1 | h2
    · exact hascii b h1
    · have := List.eq_of_mem_replicate h2
      omega
  rw [to_bytes32, to_bytes12, if_pos hn, Option.map_some', Option.some_bind,
    from_bytes32, concat_to_bytes32,
    List.drop_left' ha, List.take_left' ha,
    from_bytes12, if_pos (utf8Valid_of_ascii _ hpad), Option.map_some']

/-- C2 witness: the amended round trip evaluated on a concrete address and
the 5-byte name `acct1`. -/
theorem C2_roundtrip_padded_witness :
    (to_bytes32 (List.replicate 20 170) [97, 99, 99, 116, 49]).bind
        from_bytes32
      = some (List.replicate 20 170,
          [97, 99, 99, 116, 49] ++ List.replicate 7 0) :=
  C2_roundtrip_padded (List.replicate 20 170) [97, 99, 99, 116, 49]
    (by decide) (by decide) (by decide)

/-- C4 counterexample: `apply_to_expiration` at `raw_expiration = 2 ^ 58`
is not rejected — it is total and returns a packed word in which the
stray bit has merged into the adjacent reserved-bits range: the
expiration accessor reads `0` and `reserved_bits` reads `1`. -/
theorem C4_counterexample :
    OrderType.Default.apply_to_expiration (2 ^ 58) = 2 ^ 58 ∧
    Order.expiration' (Order.mk [] 0 0 (2 ^ 58) 0) = 0 ∧
    Order.reserved_bits (Order.mk [] 0 0 (2 ^ 58) 0) = 1 := by
  decide

/-- C4 amended: `apply_to_expiration` with `raw_expiration = 2 ^ 58 - 1`
round-trips through the expiration accessor, while `2 ^ 58` is not
rejected (there is no `FieldOutOfRange` path): the total function ORs the
value in, the accessor then reads expiration `0`, and the out-of-range
bit corrupts the adjacent reserved-bits range, which reads `1`. -/
theorem C4_boundary (ot : OrderType) :
    Order.expiration' (Order.mk [] 0 0 (ot.apply_to_expiration (2 ^ 58 - 1)) 0)
        = 2 ^ 58 - 1 ∧
    Order.expiration' (Order.mk [] 0 0 (ot.apply_to_expiration (2 ^ 58)) 0)
        = 0 ∧
    Order.reserved_bits (Order.mk [] 0 0 (ot.apply_to_expiration (2 ^ 58)) 0)
        = 1 := by
  cases ot <;> decide

/-- C8: `recv_time` returns exactly `nonce >>> 20` and `is_trigger_order`
is true exactly when `nonce >>> 63 = 1`; replacing the low 20 bits of the
nonce by any `k < 2 ^ 20` changes neither result. -/
theorem C8_nonce_accessors (o : Order) (k : Nat) (h : o.nonce < 2 ^ 64)
    (hk : k < 2 ^ 20) :
    o.recv_time = o.nonce >>> 20 ∧
    (o.is_trigger_order = true ↔ o.nonce >>> 63 = 1) ∧
    Order.recv_time { o with nonce := (o.nonce >>> 20) * 2 ^ 20 + k }
        = o.recv_time ∧
    Order.is_trigger_order { o with nonce := (o.nonce >>> 20) * 2 ^ 20 + k }
        = o.is_trigger_order := by
  have key : ((o.nonce >>> 20) * 2 ^ 20 + k) >>> 20 = o.nonce >>> 20 := by
    rw [Nat.shiftRight_eq_div_pow _ 20, Nat.mul_comm,
      Nat.mul_add_div (by norm_num), Nat.div_eq_of_lt hk, Nat.add_zero]
  refine ⟨rfl, ?_, ?_, ?_⟩
  · rw [Order.is_trigger_order]
    exact beq_iff_eq
  · simp only [Order.recv_time]
    exact key
  · simp only [Order.is_trigger_order]
    have key2 : ((o.nonce >>> 20) * 2 ^ 20 + k) >>> 63 = o.nonce >>> 63 := by
      have h63 : (63 : Nat) = 20 + 43 := rfl
      rw [h63, Nat.shiftRight_add, key, ← Nat.shiftRight_add]
    rw [key2]

/-- C8 witness: the nonce accessor facts evaluated on a concrete nonce
with the trigger bit set and `k = 5`. -/
theorem C8_nonce_accessors_witness :
    (Order.mk [] 0 0 0 (2 ^ 63 + 7)).recv_time = (2 ^ 63 + 7) >>> 20 ∧
    ((Order.mk [] 0 0 0 (2 ^ 63 + 7)).is_trigger_order = true ↔
      (2 ^ 63 + 7) >>> 63 = 1) ∧
    Order.recv_time
        { Order.mk [] 0 0 0 (2 ^ 63 + 7) with
            nonce := ((2 ^ 63 + 7) >>> 20) * 2 ^ 20 + 5 }
      = (Order.mk [] 0 0 0 (2 ^ 63 + 7)).recv_time ∧
    Order.is_trigger_order
        { Order.mk [] 0 0 0 (2 ^ 63 + 7) with
            nonce := ((2 ^ 63 + 7) >>> 20) * 2 ^ 20 + 5 }
      = (Order.mk [] 0 0 0 (2 ^ 63 + 7)).is_trigger_order :=
  C8_nonce_accessors (Order.mk [] 0 0 0 (2 ^ 63 + 7)) 5 (by norm_num)
    (by norm_num)

/-- C9: `apply_to_expiration` leaves every bit below 62 of the expiration
word unchanged (timestamp, reserved bits and reduce-only flag are all
preserved), stays inside 64 bits, and `Default` applies the zero tag, so
`Default.apply_to_expiration e = e`. -/
theorem C9_apply_frame (ot : OrderType) (e i : Nat) (hi : i < 62) :
    Nat.testBit (ot.apply_to_expiration e) i = Nat.testBit e i ∧
    OrderType.Default.apply_to_expiration e = e ∧
    (e < 2 ^ 64 → ot.apply_to_expiration e < 2 ^ 64) := by
  refine ⟨?_, ?_, ?_⟩
  · simp only [OrderType.apply_to_expiration, Nat.testBit_or,
      Nat.testBit_shiftLeft]
    have h62 : ¬ (62 ≤ i) := by omega
    simp [h62]
  · simp [OrderType.apply_to_expiration, OrderType.expiration_bit]
  · intro he
    apply Nat.or_lt_two_pow he
    cases ot <;> simp [OrderType.expiration_bit, Nat.shiftLeft_eq]

/-- C9 witness: frame preservation evaluated at a concrete order type,
expiration word and bit index. -/
theorem C9_apply_frame_witness :
    Nat.testBit (OrderType.PostOnly.apply_to_expiration (2 ^ 61 + 9)) 5
        = Nat.testBit (2 ^ 61 + 9) 5 ∧
    OrderType.Default.apply_to_expiration (2 ^ 61 + 9) = 2 ^ 61 + 9 ∧
    (2 ^ 61 + 9 < 2 ^ 64 →
      OrderType.PostOnly.apply_to_expiration (2 ^ 61 + 9) < 2 ^ 64) :=
  C9_apply_frame OrderType.PostOnly (2 ^ 61 + 9) 5 (by norm_num)

/-- C10: `recv_time` folds the trigger flag into its result:
`is_trigger_order` always equals bit 43 of `recv_time`, and when bit 63
of the nonce is set, bit 43 of `recv_time` is set and `recv_time` is at
least `2 ^ 43`. -/
theorem C10_recv_time_folds_trigger (o : Order) (h : o.nonce < 2 ^ 64) :
    o.is_trigger_order = Nat.testBit o.recv_time 43 ∧
    (Nat.testBit o.nonce 63 = true →
      Nat.testBit o.recv_time 43 = true ∧ 2 ^ 43 ≤ o.recv_time) := by
  have hbit : Nat.testBit o.recv_time 43 = Nat.testBit o.nonce 63 := by
    simp only [Order.recv_time]
    rw [Nat.testBit_shiftRight]
  constructor
  · rw [hbit]
    simp only [Order.is_trigger_order]
    have hd : o.nonce >>> 63 = o.nonce / 2 ^ 63 :=
      Nat.shiftRight_eq_div_pow _ _
    have hlt : o.nonce / 2 ^ 63 < 2 := by
      apply Nat.div_lt_of_lt_mul
      calc o.nonce < 2 ^ 64 := h
        _ = 2 ^ 63 * 2 := by norm_num
    rw [Nat.testBit_to_div_mod, hd]
    have : o.nonce / 2 ^ 63 = 0 ∨ o.nonce / 2 ^ 63 = 1 := by omega
    rcases this with h0 | h1
    · rw [h0]
      decide
    · rw [h1]
      decide
  · intro ht
    have h43 : Nat.testBit o.recv_time 43 = true := by
      rw [hbit]
      exact ht
    exact ⟨h43, Nat.testBit_implies_ge h43⟩

/-- C10 witness: the trigger-folding facts evaluated on a nonce with
bit 63 set. -/
theorem C10_recv_time_folds_trigger_witness :
    (Order.mk [] 0 0 0 (2 ^ 63)).is_trigger_order
        = Nat.testBit (Order.mk [] 0 0 0 (2 ^ 63)).recv_time 43 ∧
    (Nat.testBit (2 ^ 63 : Nat) 63 = true →
      Nat.testBit (Order.mk [] 0 0 0 (2 ^ 63)).recv_time 43 = true ∧
      2 ^ 43 ≤ (Order.mk [] 0 0 0 (2 ^ 63)).recv_time) :=
  C10_recv_time_folds_trigger (Order.mk [] 0 0 0 (2 ^ 63)) (by norm_num)

theorem pack_testBit (ot : OrderType) (ro : Bool) (e i : Nat) :
    Nat.testBit (pack_expiration ot ro 0 e) i =
      ((Nat.testBit e i ||
          (decide (61 ≤ i) &&
            Nat.testBit (if ro then 1 else 0) (i - 61))) ||
        (decide (62 ≤ i) && Nat.testBit ot.expiration_bit (i - 62))) := by
  simp only [pack_expiration, OrderType.apply_to_expiration, Nat.testBit_or,
    Nat.testBit_shiftLeft, Nat.zero_shiftLeft, Nat.zero_testBit,
    Bool.and_false, Bool.or_false]

/-- C1: for `e < 2 ^ 58`, every order type and every reduce-only flag,
packing via `pack_expiration ot ro 0 e` into an order's expiration field
and reading back through the accessors recovers the sub-fields exactly:
the expiration accessor returns `e`, the order-type tag accessor returns
`ot`, and the reduce-only accessor returns `ro`. -/
theorem C1_pack_roundtrip (ot : OrderType) (ro : Bool) (e : Nat)
    (he : e < 2 ^ 58) (o : Order)
    (ho : o.expiration = pack_expiration ot ro 0 e) :
    o.expiration' = e ∧ order_type_tag o.expiration = ot ∧
    o.reduce_only = ro := by
  refine ⟨?_, ?_, ?_⟩
  · rw [Order.expiration', ho, Nat.one_shiftLeft, and_mask_eq_mod]
    apply Nat.eq_of_testBit_eq
    intro i
    rw [Nat.testBit_mod_two_pow, pack_testBit]
    by_cases hi : i < 58
    · have h61 : ¬ (61 ≤ i) := by omega
      have h62 : ¬ (62 ≤ i) := by omega
      simp [hi, h61, h62]
    · have hei : Nat.testBit e i = false :=
        Nat.testBit_lt_two_pow
          (lt_of_lt_of_le he (Nat.pow_le_pow_right (by norm_num) (by omega)))
      simp [hi, hei]
  · have hsh : pack_expiration ot ro 0 e >>> 62 = ot.expiration_bit := by
      apply Nat.eq_of_testBit_eq
      intro i
      rw [Nat.testBit_shiftRight, pack_testBit]
      have hei : Nat.testBit e (62 + i) = false :=
        Nat.testBit_lt_two_pow
          (lt_of_lt_of_le he (Nat.pow_le_pow_right (by norm_num) (by omega)))
      have hri : Nat.testBit (if ro then 1 else 0) ((62 + i) - 61)
          = false := by
        apply Nat.testBit_lt_two_pow
        calc (if ro then 1 else 0 : Nat) ≤ 1 := by cases ro <;> simp
          _ < 2 ^ 1 := by norm_num
          _ ≤ 2 ^ ((62 + i) - 61) :=
            Nat.pow_le_pow_right (by norm_num) (by omega)
      have h62 : (62 + i) - 62 = i := by omega
      simp [hei, hri, h62]
    rw [ho]
    cases ot <;>
      simp [order_type_tag, hsh, OrderType.expiration_bit] <;> decide
  · rw [Order.reduce_only, ho, Nat.one_shiftLeft, and_two_pow_bne,
      pack_testBit]
    have hei : Nat.testBit e 61 = false :=
      Nat.testBit_lt_two_pow
        (lt_of_lt_of_le he (Nat.pow_le_pow_right (by norm_num) (by omega)))
    have h62 : ¬ (62 ≤ 61) := by omega
    simp only [hei, h62, decide_eq_false, Bool.false_and, Bool.or_false,
      Bool.false_or]
    cases ro <;> simp

/-- C1 witness: the pack/unpack round trip evaluated at a concrete order
type, reduce-only flag and expiration timestamp. -/
theorem C1_pack_roundtrip_witness :
    (Order.mk [] 0 0 (pack_expiration OrderType.FillOrKill true 0 1700000000)
        0).expiration' = 1700000000 ∧
    order_type_tag
        (Order.mk [] 0 0
          (pack_expiration OrderType.FillOrKill true 0 1700000000)
          0).expiration = OrderType.FillOrKill ∧
    (Order.mk [] 0 0 (pack_expiration OrderType.FillOrKill true 0 1700000000)
        0).reduce_only = true :=
  C1_pack_roundtrip OrderType.FillOrKill true 1700000000 (by norm_num)
    (Order.mk [] 0 0
      (pack_expiration OrderType.FillOrKill true 0 1700000000) 0) rfl

end VertexSdk
